import Mathlib

/-!
Verification development for the zcashrpc typed JSON-RPC client.

The substantive source file is `src/client.rs` (the `Client` struct, its
constructors, `make_request`, and the declared response schemas).  The
envelope codec (`envelope::RequestEnvelope` / `envelope::ResponseEnvelope`
with its `unwrap` reconciliation), the `json` helpers, and the `defapi`
macro live in modules of the same crate that are not present here; those
parts are modelled from the specification (each such definition carries a
doc comment starting with `Modelled from the spec:`).
-/

/-- Untyped JSON values, at the fidelity the client needs. Numbers are
modelled as integers: the schemas' numeric fields (`u64`, `i64`, `f64`,
`ZecAmount`) are carried as JSON numbers and no claim depends on
non-integral numerics. Objects are ordered field lists, as produced by a
serializer. -/
inductive Json where
  | null
  | bool (b : Bool)
  | num (n : Int)
  | str (s : String)
  | arr (elems : List Json)
  | obj (fields : List (String × Json))

/-- First-match association lookup among an object's fields. -/
def lookupField : List (String × Json) → String → Option Json
  | [], _ => none
  | (k, v) :: rest, name => if k = name then some v else lookupField rest name

/-- Look a field up in a JSON value; `none` on non-objects. -/
def Json.getField : Json → String → Option Json
  | .obj fs, name => lookupField fs name
  | _, _ => none

/-- Remove a field from a JSON object (identity on non-objects). -/
def Json.removeField : Json → String → Json
  | .obj fs, name => .obj (fs.filter (fun kv => kv.1 != name))
  | j, _ => j

/-- The application-level error object of a JSON-RPC response:
`{code, message}` (spec section 3, ResponseEnvelope). -/
structure ErrorObject where
  code : Int
  message : String

/-- Modelled from the spec: the `envelope::ResponseEnvelope` module is not
under `src/`. Per spec section 3, a response envelope's `id` is an arbitrary
JSON value (possibly null or mismatched), and `result` / `error` are each
optional. -/
structure ResponseEnvelope where
  id : Json
  result : Option Json
  error : Option ErrorObject

/-- The error taxonomy of spec section 7 that a call can surface
(`Environment` arises only in construction and is kept separate, matching
`Client::from_env` returning `std::env::VarError`). -/
inductive RpcCallError where
  | Transport (msg : String)
  | Malformed
  | Mismatch
  | RpcError (code : Int) (message : String)
  | Decode (msg : String)

/-- Does the envelope's id belong to this request? Per spec section 4.1
step 1, a mismatch is an id that is present (non-null) and not equal to the
expected request identifier; any present non-numeric id is a mismatch. -/
def idOk : Json → Nat → Bool
  | .null, _ => true
  | .num n, expected => n == Int.ofNat expected
  | _, _ => false

/-- Modelled from the spec: `ResponseEnvelope::unwrap` lives in the missing
`envelope` module. Spec section 4.1: (1) a present, non-matching id fails
with Mismatch; (2) else a populated `error` fails with RpcError carrying
the server's code and message; (3) else a populated `result` is decoded
into the expected type, a shape mismatch failing with Decode; (4) else
(neither populated) fail with Malformed. -/
def ResponseEnvelope.unwrap {R : Type} (env : ResponseEnvelope) (expectedId : Nat)
    (decode : Json → Except String R) : Except RpcCallError R :=
  if idOk env.id expectedId then
    match env.error with
    | some e => .error (.RpcError e.code e.message)
    | none =>
      match env.result with
      | some r =>
        match decode r with
        | .ok v => .ok v
        | .error m => .error (.Decode m)
      | none => .error .Malformed
  else
    .error .Mismatch

/-- Modelled from the spec: `envelope::RequestEnvelope::wrap` lives in the
missing `envelope` module. Spec section 4.1: it builds the fixed wire shape
with the given id, method and positional params, no validation of either. -/
def RequestEnvelope.wrap (id : Nat) (method : String) (args : List Json) : Json :=
  .obj [("jsonrpc", .str "1.0"), ("id", .num (Int.ofNat id)),
        ("method", .str method), ("params", .arr args)]

/-- Modelled from the spec: decoding a serialized request envelope back
into its id, method name and parameter sequence (spec section 8, round
trip), reading the three fields of the wire shape of section 6. -/
def RequestEnvelope.decode (j : Json) : Option (Nat × String × List Json) :=
  match j.getField "id", j.getField "method", j.getField "params" with
  | some (.num (Int.ofNat id)), some (.str m), some (.arr ps) => some (id, m, ps)
  | _, _, _ => none

/-- The `Client` of `client.rs`: url, auth header value, transport handle
(opaque, modelled as `Unit`), and the id iterator `idit : RangeFrom<u64>`,
modelled by the next id it will yield. -/
structure Client where
  url : String
  auth : String
  reqcli : Unit
  idit : Nat

/-- `Client::new` (client.rs lines 23-30): url is
`format!("http://{}/", hostport)`, auth is `format!("Basic {}", authcookie)`,
and the id iterator is `(0..)`. No validation or I/O. -/
def Client.new (hostport : String) (authcookie : String) : Client :=
  { url := "http://" ++ hostport ++ "/"
    auth := "Basic " ++ authcookie
    reqcli := ()
    idit := 0 }

/-- `std::env::VarError`: `NotPresent` carries no data (in particular, not
the name of the variable that was missing); `NotUnicode` carries the
ill-formed value. -/
inductive VarError where
  | notPresent
  | notUnicode (value : String)

/-- `std::env::var`, over an environment modelled as a partial map from
variable names to (unicode) values: a missing variable yields
`VarError::NotPresent`. -/
def envVar (env : String → Option String) (name : String) : Except VarError String :=
  match env name with
  | some v => .ok v
  | none => .error .notPresent

/-- `Client::from_env` (client.rs lines 33-39): reads `"ZCASHRPC_HOST"`
then `"ZCASHRPC_AUTH"` with `std::env::var`, propagating the first
`VarError`, and passes the values to `Client::new`. -/
def Client.from_env (env : String → Option String) : Except VarError Client := do
  let host ← envVar env "ZCASHRPC_HOST"
  let auth ← envVar env "ZCASHRPC_AUTH"
  return Client.new host auth

/-- One HTTP POST as issued by `make_request`: the url, the
`Authorization` header value, and the body (the serialized request
envelope, kept as its JSON value). -/
structure HttpRequest where
  url : String
  authorization : String
  body : Json

/-- The request that `make_request` sends for a given client state
(client.rs lines 55-61): POST to `self.url`, `Authorization` header
`self.auth`, body `RequestEnvelope::wrap(id, method, args)` with the id
drawn from `self.idit`. -/
def Client.requestSent (c : Client) (method : String) (args : List Json) : HttpRequest :=
  { url := c.url
    authorization := c.auth
    body := RequestEnvelope.wrap c.idit method args }

/-- `Client::make_request` (client.rs lines 41-66): draw
`id = self.idit.next().unwrap()` (advancing the iterator unconditionally),
POST the wrapped envelope, then parse and reconcile the response with
`respenv.unwrap(id)`. The transport argument folds the HTTP round trip and
the `json::parse_string` / `json::parse_value` steps (the `json` module is
not under `src/`): it yields a response envelope or the Transport/Malformed
error those steps produce. The updated client is returned alongside the
outcome; its id iterator has advanced whatever the outcome. -/
def Client.make_request {R : Type} (c : Client) (method : String) (args : List Json)
    (decode : Json → Except String R)
    (transport : HttpRequest → Except RpcCallError ResponseEnvelope) :
    Except RpcCallError R × Client :=
  let id := c.idit
  ((match transport (c.requestSent method args) with
    | .error e => .error e
    | .ok env => env.unwrap id decode),
   { c with idit := c.idit + 1 })

/-- Decode a JSON value as a `u64` (a number in `[0, 2^64)`), as the serde
deserializer for a `u64` field does. -/
def decodeU64 : Json → Except String Nat
  | .num n => if 0 ≤ n ∧ n < 2 ^ 64 then .ok n.toNat else .error "invalid u64"
  | _ => .error "invalid u64"

/-- Decode a JSON value as an `i64` (a number in `[-2^63, 2^63)`). -/
def decodeI64 : Json → Except String Int
  | .num n => if -(2 ^ 63) ≤ n ∧ n < 2 ^ 63 then .ok n else .error "invalid i64"
  | _ => .error "invalid i64"

/-- Decode a JSON value as an `f64` field: any JSON number (numbers are
integral in this model). -/
def decodeF64 : Json → Except String Int
  | .num n => .ok n
  | _ => .error "invalid f64"

/-- Modelled from the spec: `ZecAmount` is defined at the crate root, which
is not under `src/`; it is an amount value, modelled as a JSON number. -/
def decodeZec : Json → Except String Int
  | .num n => .ok n
  | _ => .error "invalid ZecAmount"

/-- Decode a JSON value as a string field. -/
def decodeStringField : Json → Except String String
  | .str s => .ok s
  | _ => .error "invalid string"

/-- Decode a JSON value as a boolean field. -/
def decodeBool : Json → Except String Bool
  | .bool b => .ok b
  | _ => .error "invalid bool"

/-- Extract and decode a required field: its absence is the serde error
`missing field`. -/
def reqField {α : Type} (fs : List (String × Json)) (name : String)
    (dec : Json → Except String α) : Except String α :=
  match lookupField fs name with
  | some v => dec v
  | none => .error ("missing field " ++ name)

/-- Extract and decode an `Option<T>` field: absence (or null) decodes to
`none`, as serde defaults an absent `Option` field. -/
def optField {α : Type} (fs : List (String × Json)) (name : String)
    (dec : Json → Except String α) : Except String (Option α) :=
  match lookupField fs name with
  | none => .ok none
  | some .null => .ok none
  | some v => (dec v).map some

/-- Are all of an object's keys among the declared field names? Per spec
section 7, a payload with extra fields does not match the schema. -/
def knownFieldsOnly (fs : List (String × Json)) (names : List String) : Bool :=
  fs.all (fun kv => names.contains kv.1)

/-- Decode a `Vec<T>` field from a JSON array. -/
def decodeVec {α : Type} (dec : Json → Except String α) : Json → Except String (List α)
  | .arr xs => xs.mapM dec
  | _ => .error "invalid array"

/-- Decode a `HashMap<String, T>` field from a JSON object, keeping the
entries as an association list. -/
def decodeMap {α : Type} (dec : Json → Except String α) :
    Json → Except String (List (String × α))
  | .obj fs => fs.mapM (fun kv => (dec kv.2).map (fun v => (kv.1, v)))
  | _ => .error "invalid map"

/-- Is the outcome a success? -/
def exceptOk {ε α : Type} : Except ε α → Bool
  | .ok _ => true
  | .error _ => false

/-- The `GetInfoResponse` schema declared in client.rs lines 69-87.
`ZecAmount` and `f64` fields are carried as model numbers. -/
structure GetInfoResponse where
  balance : Int
  blocks : Nat
  connections : Nat
  difficulty : Int
  errors : String
  keypoololdest : Nat
  keypoolsize : Nat
  paytxfee : Int
  protocolversion : Nat
  proxy : String
  relayfee : Int
  testnet : Bool
  timeoffset : Nat
  version : Nat
  walletversion : Nat

/-- The declared field names of `GetInfoResponse`, in declaration order. -/
def getInfoFieldNames : List String :=
  ["balance", "blocks", "connections", "difficulty", "errors",
   "keypoololdest", "keypoolsize", "paytxfee", "protocolversion", "proxy",
   "relayfee", "testnet", "timeoffset", "version", "walletversion"]

/-- Modelled from the spec: the `defapi` macro that generates the
deserializer is not under `src/`. Per spec section 7, the `result` payload
matches the `GetInfoResponse` schema of client.rs exactly when it is an
object with no missing, extra, or mistyped fields; anything else is a
decode failure, never a silently-defaulted value. -/
def decodeGetInfo (j : Json) : Except String GetInfoResponse :=
  match j with
  | .obj fs =>
    if knownFieldsOnly fs getInfoFieldNames then do
      let balance ← reqField fs "balance" decodeZec
      let blocks ← reqField fs "blocks" decodeU64
      let connections ← reqField fs "connections" decodeU64
      let difficulty ← reqField fs "difficulty" decodeF64
      let errors ← reqField fs "errors" decodeStringField
      let keypoololdest ← reqField fs "keypoololdest" decodeU64
      let keypoolsize ← reqField fs "keypoolsize" decodeU64
      let paytxfee ← reqField fs "paytxfee" decodeZec
      let protocolversion ← reqField fs "protocolversion" decodeU64
      let proxy ← reqField fs "proxy" decodeStringField
      let relayfee ← reqField fs "relayfee" decodeZec
      let testnet ← reqField fs "testnet" decodeBool
      let timeoffset ← reqField fs "timeoffset" decodeU64
      let version ← reqField fs "version" decodeU64
      let walletversion ← reqField fs "walletversion" decodeU64
      .ok { balance, blocks, connections, difficulty, errors, keypoololdest,
            keypoolsize, paytxfee, protocolversion, proxy, relayfee, testnet,
            timeoffset, version, walletversion }
    else .error "unknown field"
  | _ => .error "expected object"

/-- The `Consensus` schema of client.rs lines 145-149. -/
structure Consensus where
  chaintip : String
  nextblock : String

/-- Decoder for `Consensus`, following its declared fields. -/
def decodeConsensus (j : Json) : Except String Consensus :=
  match j with
  | .obj fs =>
    if knownFieldsOnly fs ["chaintip", "nextblock"] then do
      let chaintip ← reqField fs "chaintip" decodeStringField
      let nextblock ← reqField fs "nextblock" decodeStringField
      .ok { chaintip, nextblock }
    else .error "unknown field"
  | _ => .error "expected object"

/-- The `NetworkUpgradeDesc` schema of client.rs lines 137-143. -/
structure NetworkUpgradeDesc where
  name : String
  activationheight : Nat
  status : String
  info : String

/-- Decoder for `NetworkUpgradeDesc`, following its declared fields. -/
def decodeNetworkUpgradeDesc (j : Json) : Except String NetworkUpgradeDesc :=
  match j with
  | .obj fs =>
    if knownFieldsOnly fs ["name", "activationheight", "status", "info"] then do
      let name ← reqField fs "name" decodeStringField
      let activationheight ← reqField fs "activationheight" decodeU64
      let status ← reqField fs "status" decodeStringField
      let info ← reqField fs "info" decodeStringField
      .ok { name, activationheight, status, info }
    else .error "unknown field"
  | _ => .error "expected object"

/-- The `SoftforkMajorityDesc` schema of client.rs lines 129-135; `window`
is the intentionally opaque `serde_json::Value` passthrough. -/
structure SoftforkMajorityDesc where
  status : Bool
  found : Int
  required : Int
  window : Json

/-- Decoder for `SoftforkMajorityDesc`, following its declared fields. -/
def decodeSoftforkMajorityDesc (j : Json) : Except String SoftforkMajorityDesc :=
  match j with
  | .obj fs =>
    if knownFieldsOnly fs ["status", "found", "required", "window"] then do
      let status ← reqField fs "status" decodeBool
      let found ← reqField fs "found" decodeI64
      let required ← reqField fs "required" decodeI64
      let window ← reqField fs "window" (fun v => .ok v)
      .ok { status, found, required, window }
    else .error "unknown field"
  | _ => .error "expected object"

/-- The `Softfork` schema of client.rs lines 121-127. -/
structure Softfork where
  id : String
  version : Int
  enforce : SoftforkMajorityDesc
  reject : SoftforkMajorityDesc

/-- Decoder for `Softfork`, following its declared fields. -/
def decodeSoftfork (j : Json) : Except String Softfork :=
  match j with
  | .obj fs =>
    if knownFieldsOnly fs ["id", "version", "enforce", "reject"] then do
      let id ← reqField fs "id" decodeStringField
      let version ← reqField fs "version" decodeI64
      let enforce ← reqField fs "enforce" decodeSoftforkMajorityDesc
      let reject ← reqField fs "reject" decodeSoftforkMajorityDesc
      .ok { id, version, enforce, reject }
    else .error "unknown field"
  | _ => .error "expected object"

/-- The `ValuePool` schema of client.rs lines 110-119; the four `Option`
fields may be absent. -/
structure ValuePool where
  id : String
  monitored : Bool
  chainValue : Option Int
  chainValueZat : Option Nat
  valueDelta : Option Int
  valueDeltaZat : Option Int

/-- Decoder for `ValuePool`, following its declared fields. -/
def decodeValuePool (j : Json) : Except String ValuePool :=
  match j with
  | .obj fs =>
    if knownFieldsOnly fs ["id", "monitored", "chainValue", "chainValueZat",
                           "valueDelta", "valueDeltaZat"] then do
      let id ← reqField fs "id" decodeStringField
      let monitored ← reqField fs "monitored" decodeBool
      let chainValue ← optField fs "chainValue" decodeZec
      let chainValueZat ← optField fs "chainValueZat" decodeU64
      let valueDelta ← optField fs "valueDelta" decodeZec
      let valueDeltaZat ← optField fs "valueDeltaZat" decodeI64
      .ok { id, monitored, chainValue, chainValueZat, valueDelta, valueDeltaZat }
    else .error "unknown field"
  | _ => .error "expected object"

/-- The `GetBlockChainInfoResponse` schema declared in client.rs lines
89-108: fourteen required fields followed by the two `Option` fields
`pruneheight` and `fullyNotified`. -/
structure GetBlockChainInfoResponse where
  chain : String
  blocks : Nat
  headers : Nat
  bestblockhash : String
  difficulty : Int
  verificationprogress : Int
  chainwork : String
  pruned : Bool
  size_on_disk : Nat
  commitments : Nat
  valuePools : List ValuePool
  softforks : List Softfork
  upgrades : List (String × NetworkUpgradeDesc)
  consensus : Consensus
  pruneheight : Option Nat
  fullyNotified : Option Bool

/-- The names of the fourteen required (non-`Option`) fields of
`GetBlockChainInfoResponse`, in declaration order. -/
def gbciRequiredFieldNames : List String :=
  ["chain", "blocks", "headers", "bestblockhash", "difficulty",
   "verificationprogress", "chainwork", "pruned", "size_on_disk",
   "commitments", "valuePools", "softforks", "upgrades", "consensus"]

/-- Modelled from the spec: the `defapi` macro expansion is not under
`src/`. The decoder follows the `GetBlockChainInfoResponse` field list of
client.rs with serde's documented behavior: every non-`Option` field is
required, while the `Option` fields `pruneheight` and `fullyNotified`
default to `none` when absent. -/
def decodeGetBlockChainInfo (j : Json) : Except String GetBlockChainInfoResponse :=
  match j with
  | .obj fs =>
    if knownFieldsOnly fs (gbciRequiredFieldNames ++ ["pruneheight", "fullyNotified"]) then do
      let chain ← reqField fs "chain" decodeStringField
      let blocks ← reqField fs "blocks" decodeU64
      let headers ← reqField fs "headers" decodeU64
      let bestblockhash ← reqField fs "bestblockhash" decodeStringField
      let difficulty ← reqField fs "difficulty" decodeF64
      let verificationprogress ← reqField fs "verificationprogress" decodeF64
      let chainwork ← reqField fs "chainwork" decodeStringField
      let pruned ← reqField fs "pruned" decodeBool
      let size_on_disk ← reqField fs "size_on_disk" decodeU64
      let commitments ← reqField fs "commitments" decodeU64
      let valuePools ← reqField fs "valuePools" (decodeVec decodeValuePool)
      let softforks ← reqField fs "softforks" (decodeVec decodeSoftfork)
      let upgrades ← reqField fs "upgrades" (decodeMap decodeNetworkUpgradeDesc)
      let consensus ← reqField fs "consensus" decodeConsensus
      let pruneheight ← optField fs "pruneheight" decodeU64
      let fullyNotified ← optField fs "fullyNotified" decodeBool
      .ok { chain, blocks, headers, bestblockhash, difficulty,
            verificationprogress, chainwork, pruned, size_on_disk, commitments,
            valuePools, softforks, upgrades, consensus, pruneheight,
            fullyNotified }
    else .error "unknown field"
  | _ => .error "expected object"

/-- A result payload populating every field of
`GetBlockChainInfoResponse`, the two optional ones included. -/
def gbciFullPayload : Json :=
  .obj [("chain", .str "main"), ("blocks", .num 12345), ("headers", .num 12345),
        ("bestblockhash", .str "00ab"), ("difficulty", .num 17),
        ("verificationprogress", .num 1), ("chainwork", .str "01"),
        ("pruned", .bool true), ("size_on_disk", .num 4096),
        ("commitments", .num 7), ("valuePools", .arr []),
        ("softforks", .arr []), ("upgrades", .obj []),
        ("consensus", .obj [("chaintip", .str "t"), ("nextblock", .str "n")]),
        ("pruneheight", .num 100), ("fullyNotified", .bool true)]

/-- The spec section 8 schema-mismatch payload: a single unexpected field
against a schema requiring `blocks` among others. -/
def unexpectedFieldPayload : Json := .obj [("unexpectedField", .num 1)]

/-- The identifiers a run of sequential calls against one client uses, one
per call, each call handled by its own transport outcome: `make_request`
draws `self.idit.next().unwrap()` for each call, so each call consumes the
current head of the iterator and the next call sees the advanced state,
whatever the call's outcome. -/
def seqCallIds : Client → List (HttpRequest → Except RpcCallError ResponseEnvelope) → List Nat
  | _, [] => []
  | c, t :: ts =>
    c.idit :: seqCallIds (c.make_request "getinfo" [] decodeGetInfo t).2 ts

/-- An environment where only the host variable is set: the credential
variable `ZCASHRPC_AUTH` is missing. -/
def envMissingAuth : String → Option String :=
  fun n => if n = "ZCASHRPC_HOST" then some "127.0.0.1:8232" else none

/-- An environment where only the credential variable is set: the host
variable `ZCASHRPC_HOST` is missing. -/
def envMissingHost : String → Option String :=
  fun n => if n = "ZCASHRPC_AUTH" then some "cookievalue" else none

theorem idOk_false_of_present_ne {j : Json} {expected : Nat}
    (h1 : j ≠ Json.null) (h2 : j ≠ Json.num (Int.ofNat expected)) :
    idOk j expected = false := by
  cases j <;> simp_all [idOk]

theorem except_bind_ok {ε α β : Type} {x : Except ε α} {f : α → Except ε β} {b : β}
    (h : x >>= f = .ok b) : ∃ a, x = .ok a ∧ f a = .ok b := by
  cases x with
  | ok a => exact ⟨a, rfl, h⟩
  | error e => exact Except.noConfusion h

theorem except_error_bind {ε α β : Type} (e : ε) (f : α → Except ε β) :
    (Except.error e : Except ε α) >>= f = .error e := rfl

theorem except_ok_bind {ε α β : Type} (a : α) (f : α → Except ε β) :
    (Except.ok a : Except ε α) >>= f = f a := rfl

/-- C1: for every response envelope whose id field is present (non-null)
and not equal to the expected request identifier, and whose error field is
also populated, `unwrap` returns a Mismatch error and not an RpcError: the
identifier check is performed before the error/result inspection. -/
theorem unwrap_mismatch_precedes_rpcerror {R : Type}
    (env : ResponseEnvelope) (expectedId : Nat) (e : ErrorObject)
    (decode : Json → Except String R)
    (hpresent : env.id ≠ Json.null)
    (hne : env.id ≠ Json.num (Int.ofNat expectedId))
    (_herr : env.error = some e) :
    env.unwrap expectedId decode = .error .Mismatch := by
  have hid := idOk_false_of_present_ne hpresent hne
  simp [ResponseEnvelope.unwrap, hid]

/-- Witness for C1: id 5 against expected id 3 with a populated error
object still reconciles to Mismatch. -/
theorem unwrap_mismatch_precedes_rpcerror_inst :
    ResponseEnvelope.unwrap ⟨Json.num 5, none, some ⟨1, "boom"⟩⟩ 3 decodeGetInfo
      = .error .Mismatch :=
  unwrap_mismatch_precedes_rpcerror _ 3 ⟨1, "boom"⟩ decodeGetInfo
    (by simp) (by simp) rfl

/-- C3: for every response envelope with a matching identifier in which
both the result field and the error field are populated, `unwrap` returns
an RpcError (an error, by design priority) and never the result value as a
success. -/
theorem unwrap_both_populated_yields_error {R : Type}
    (env : ResponseEnvelope) (expectedId : Nat) (r : Json) (e : ErrorObject)
    (decode : Json → Except String R)
    (hid : env.id = Json.num (Int.ofNat expectedId))
    (_hres : env.result = some r)
    (herr : env.error = some e) :
    env.unwrap expectedId decode = .error (.RpcError e.code e.message) := by
  simp [ResponseEnvelope.unwrap, hid, herr, idOk]

/-- Witness for C3: a matching-id envelope with both fields populated
yields the RpcError, not the result value. -/
theorem unwrap_both_populated_yields_error_inst :
    ResponseEnvelope.unwrap ⟨Json.num 7, some (Json.num 1), some ⟨-1, "oops"⟩⟩ 7
      decodeGetInfo = .error (.RpcError (-1) "oops") :=
  unwrap_both_populated_yields_error _ 7 (Json.num 1) ⟨-1, "oops"⟩ decodeGetInfo
    rfl rfl rfl

/-- C4: for every response envelope with a matching identifier in which
neither the result field nor the error field is populated, `unwrap`
returns a Malformed error. -/
theorem unwrap_neither_populated_malformed {R : Type}
    (env : ResponseEnvelope) (expectedId : Nat)
    (decode : Json → Except String R)
    (hid : env.id = Json.num (Int.ofNat expectedId))
    (hres : env.result = none)
    (herr : env.error = none) :
    env.unwrap expectedId decode = .error .Malformed := by
  simp [ResponseEnvelope.unwrap, hid, herr, hres, idOk]

/-- Witness for C4: a matching-id envelope with neither field populated
reconciles to Malformed. -/
theorem unwrap_neither_populated_malformed_inst :
    ResponseEnvelope.unwrap ⟨Json.num 2, none, none⟩ 2 decodeGetInfo
      = .error .Malformed :=
  unwrap_neither_populated_malformed _ 2 decodeGetInfo rfl rfl rfl

/-- C5: a matching-id envelope whose result payload does not match the
`GetInfoResponse` schema (the decoder fails on it, as it does on missing,
extra, or mistyped fields) makes the call fail with a Decode error; and
the decoder never silently defaults: a successful decode means the payload
itself carried the `blocks` field with the decoded value. -/
theorem getinfo_schema_mismatch_decode :
    (∀ (env : ResponseEnvelope) (expectedId : Nat) (p : Json) (m : String),
       env.id = Json.num (Int.ofNat expectedId) → env.error = none →
       env.result = some p → decodeGetInfo p = .error m →
       env.unwrap expectedId decodeGetInfo = .error (.Decode m)) ∧
    (∀ (j : Json) (v : GetInfoResponse), decodeGetInfo j = .ok v →
       j.getField "blocks" = some (Json.num (Int.ofNat v.blocks))) := by
  constructor
  · intro env expectedId p m hid herr hres hdec
    simp [ResponseEnvelope.unwrap, hid, herr, hres, hdec, idOk]
  · intro j v h
    cases j with
    | obj fs =>
      simp only [decodeGetInfo] at h
      split at h
      case isFalse => exact Except.noConfusion h
      case isTrue hknown =>
        obtain ⟨balance, hbal, h⟩ := except_bind_ok h
        obtain ⟨blocks, hblk, h⟩ := except_bind_ok h
        obtain ⟨connections, hconn, h⟩ := except_bind_ok h
        obtain ⟨difficulty, hdiff, h⟩ := except_bind_ok h
        obtain ⟨errors, herrs, h⟩ := except_bind_ok h
        obtain ⟨keypoololdest, hkpo, h⟩ := except_bind_ok h
        obtain ⟨keypoolsize, hkps, h⟩ := except_bind_ok h
        obtain ⟨paytxfee, hptf, h⟩ := except_bind_ok h
        obtain ⟨protocolversion, hpv, h⟩ := except_bind_ok h
        obtain ⟨proxy, hpx, h⟩ := except_bind_ok h
        obtain ⟨relayfee, hrf, h⟩ := except_bind_ok h
        obtain ⟨testnet, htn, h⟩ := except_bind_ok h
        obtain ⟨timeoffset, hto, h⟩ := except_bind_ok h
        obtain ⟨version, hver, h⟩ := except_bind_ok h
        obtain ⟨walletversion, hwv, h⟩ := except_bind_ok h
        have hv : v.blocks = blocks := by
          cases h; rfl
        unfold reqField at hblk
        cases hl : lookupField fs "blocks" with
        | none => rw [hl] at hblk; exact Except.noConfusion hblk
        | some jv =>
          rw [hl] at hblk
          cases jv <;> simp only [decodeU64] at hblk <;>
            try exact Except.noConfusion hblk
          case num n =>
            split at hblk
            case isFalse => exact Except.noConfusion hblk
            case isTrue hrange =>
              have hn : blocks = n.toNat := by cases hblk; rfl
              have hfin : Int.ofNat v.blocks = n := by
                rw [hv, hn]; exact Int.toNat_of_nonneg hrange.1
              simp only [Json.getField, hl, Option.some.injEq, Json.num.injEq]
              omega
    | null => exact Except.noConfusion h
    | bool b => exact Except.noConfusion h
    | num n => exact Except.noConfusion h
    | str s => exact Except.noConfusion h
    | arr xs => exact Except.noConfusion h

/-- Witness for C5: the spec's example payload, a lone unexpected field
against the schema requiring `blocks` among others, makes the matching-id
call fail with a Decode error. -/
theorem getinfo_schema_mismatch_decode_inst :
    ResponseEnvelope.unwrap ⟨Json.num 0, some unexpectedFieldPayload, none⟩ 0
      decodeGetInfo = .error (.Decode "unknown field") :=
  getinfo_schema_mismatch_decode.1 _ 0 unexpectedFieldPayload "unknown field"
    rfl rfl rfl rfl

theorem seqCallIds_eq_range (ts : List (HttpRequest → Except RpcCallError ResponseEnvelope))
    (c : Client) : seqCallIds c ts = List.range' c.idit ts.length := by
  induction ts generalizing c with
  | nil => rfl
  | cons t ts ih => simp [seqCallIds, Client.make_request, ih, List.range']

/-- C2: for one Client and any number of sequential calls, the
identifiers used are exactly 0, 1, ..., N-1: pairwise distinct and
strictly increasing, starting at 0 and advancing by exactly 1 on every
call attempt whatever that call's outcome (the per-call transport outcome
is arbitrary, covering calls that fail); moreover the identifier is the
one carried in the wire envelope each call sends. -/
theorem client_sequential_ids (hostport authcookie : String)
    (ts : List (HttpRequest → Except RpcCallError ResponseEnvelope)) :
    seqCallIds (Client.new hostport authcookie) ts = List.range ts.length ∧
    (seqCallIds (Client.new hostport authcookie) ts).Nodup ∧
    List.Chain' (· < ·) (seqCallIds (Client.new hostport authcookie) ts) ∧
    (∀ (R : Type) (c : Client) (method : String) (args : List Json)
       (decode : Json → Except String R)
       (transport : HttpRequest → Except RpcCallError ResponseEnvelope),
       ((c.make_request method args decode transport).2).idit = c.idit + 1) ∧
    (∀ (c : Client) (method : String) (args : List Json),
       RequestEnvelope.decode ((c.requestSent method args).body)
         = some (c.idit, method, args)) := by
  have hr : seqCallIds (Client.new hostport authcookie) ts = List.range ts.length := by
    rw [seqCallIds_eq_range, List.range_eq_range']
    rfl
  refine ⟨hr, ?_, ?_, ?_, ?_⟩
  · rw [hr]; exact List.nodup_range _
  · rw [hr]; exact (List.pairwise_lt_range _).chain'
  · intro R c method args decode transport; rfl
  · intro c method args; rfl

/-- C6 counterexample: the error `Client::from_env` produces when the
credential variable is missing is `VarError::NotPresent`, which carries no
data at all; it equals the error produced when the host variable is
missing instead, so the error cannot name the specific missing variable. -/
theorem from_env_error_carries_no_variable_name :
    Client.from_env envMissingAuth = .error VarError.notPresent ∧
    Client.from_env envMissingHost = .error VarError.notPresent ∧
    Client.from_env envMissingAuth = Client.from_env envMissingHost :=
  ⟨rfl, rfl, rfl⟩

/-- C6 (amended): constructing a Client from environment variables fails
whenever either `ZCASHRPC_HOST` or `ZCASHRPC_AUTH` is absent, with the
`VarError::NotPresent` error — which does not name the missing variable. -/
theorem from_env_missing_var_fails (env : String → Option String)
    (h : env "ZCASHRPC_HOST" = none ∨ env "ZCASHRPC_AUTH" = none) :
    Client.from_env env = .error VarError.notPresent := by
  rcases h with h | h
  · simp [Client.from_env, envVar, h, except_error_bind]
  · cases hh : env "ZCASHRPC_HOST" <;>
      simp [Client.from_env, envVar, h, hh, except_error_bind, except_ok_bind]

/-- Witness for the amended C6: the empty environment makes `from_env`
fail with `NotPresent`. -/
theorem from_env_missing_var_fails_inst :
    Client.from_env (fun _ => none) = .error VarError.notPresent :=
  from_env_missing_var_fails (fun _ => none) (Or.inl rfl)

/-- C7: encoding a request envelope with method `"getinfo"` and an empty
parameter sequence, then decoding the serialized form back, recovers the
same method name and the same empty parameter sequence, for every request
identifier. -/
theorem request_envelope_round_trip_getinfo (id : Nat) :
    RequestEnvelope.decode (RequestEnvelope.wrap id "getinfo" [])
      = some (id, "getinfo", []) := rfl

/-- C8: constructing a Client from explicit values always succeeds — the
constructor is a total pure function with no error case and no I/O in the
model — and the returned client's identifier iterator starts at 0. -/
theorem client_new_total (hostport authcookie : String) :
    ∃ c : Client, Client.new hostport authcookie = c ∧ c.idit = 0 :=
  ⟨Client.new hostport authcookie, rfl, rfl⟩

/-- C9: `Client::new` sets the request URL to exactly
`"http://" ++ hostport ++ "/"` (plain HTTP) and the Authorization header
value to exactly `"Basic " ++ authcookie`, with no validation or encoding
of either string, and every request the client sends carries exactly
those two values. -/
theorem client_new_url_auth_exact (hostport authcookie : String)
    (method : String) (args : List Json) :
    (Client.new hostport authcookie).url = "http://" ++ hostport ++ "/" ∧
    (Client.new hostport authcookie).auth = "Basic " ++ authcookie ∧
    ((Client.new hostport authcookie).requestSent method args).url
      = "http://" ++ hostport ++ "/" ∧
    ((Client.new hostport authcookie).requestSent method args).authorization
      = "Basic " ++ authcookie :=
  ⟨rfl, rfl, rfl, rfl⟩

/-- C10: decoding a `GetBlockChainInfoResponse` succeeds on a result
payload omitting `pruneheight`, `fullyNotified`, or both (the two `Option`
fields default to absent), while omitting any one of the fourteen other
declared fields makes decoding fail. -/
theorem gbci_optional_fields :
    exceptOk (decodeGetBlockChainInfo gbciFullPayload) = true ∧
    exceptOk (decodeGetBlockChainInfo (gbciFullPayload.removeField "pruneheight")) = true ∧
    exceptOk (decodeGetBlockChainInfo (gbciFullPayload.removeField "fullyNotified")) = true ∧
    exceptOk (decodeGetBlockChainInfo
      ((gbciFullPayload.removeField "pruneheight").removeField "fullyNotified")) = true ∧
    gbciRequiredFieldNames.all
      (fun nm => !exceptOk (decodeGetBlockChainInfo (gbciFullPayload.removeField nm)))
      = true :=
  ⟨rfl, rfl, rfl, rfl, rfl⟩
